import Mathlib

/-!
Package bunslog: the query hook that turns bun query events into slog records.

A shallow embedding of `bunslog.go`.  The hook's own code (options,
constructor, `BeforeQuery`, `AfterQuery`) is translated function by function.
The Go standard library pieces it calls (`log/slog`, `time`, `os.LookupEnv`,
`database/sql.ErrNoRows`) and bun's `QueryEvent` are external collaborators;
they are modelled by the small interface the hook uses:

* a `Logger` is a sink predicate (`Handler.Enabled`) plus the attributes bound
  to it through `With`; every call that reaches the handler is recorded in a
  trace of `Call`s, in the manner of the recording handler of
  `bunslog_test.go`;
* instants are integer nanosecond readings of one clock, `time.Since` is the
  saturating difference in the `int64` range of `time.Duration`;
* the environment is a lookup function.
-/

namespace bunslog

/-! ## External collaborators -/

/-- Severity `slog.Level`, a Go `int`. -/
abbrev Level := Int

/-- Constant `slog.LevelDebug`. -/
def LevelDebug : Level := -4

/-- Constant `slog.LevelInfo`. -/
def LevelInfo : Level := 0

/-- Constant `slog.LevelWarn`. -/
def LevelWarn : Level := 4

/-- Constant `slog.LevelError`. -/
def LevelError : Level := 8

/-- Non-nil values of the Go interface `error`, up to what the comparison
`switch event.Err` of `AfterQuery` can tell apart: the sentinel
`sql.ErrNoRows` itself, a plain error made by `errors.New`, and an error that
wraps another one (`fmt.Errorf` with the verb `%w`).  A nil `error` is `none`
of `Option GoError`. -/
inductive GoError where
  | ErrNoRows
  | errorString (s : String)
  | wrapError (msg : String) (err : GoError)
  deriving DecidableEq, Repr

/-- Values of `time.Duration`: a count of nanoseconds held in an `int64`. -/
abbrev Duration := Int

/-- Instants `time.Time`: the nanosecond reading of the clock. -/
abbrev Time := Int

/-- Smallest `time.Duration`. -/
def minDuration : Duration := -9223372036854775808

/-- Largest `time.Duration`. -/
def maxDuration : Duration := 9223372036854775807

/-- Constant `time.Millisecond`. -/
def Millisecond : Duration := 1000000

/-- Function `time.Since(t)` evaluated when the clock reads `now`: the
difference `now - t`, saturated to the range of `time.Duration`. -/
def Since (now t : Time) : Duration :=
  if now - t < minDuration then minDuration
  else if maxDuration < now - t then maxDuration
  else now - t

/-- Method `Duration.Milliseconds`: `int64(d) / 1e6`, Go integer division
(truncation toward zero). -/
def Milliseconds (d : Duration) : Int := Int.tdiv d 1000000

/-- Values an attribute of `AfterQuery` can hold: `slog.String`, `slog.Int64`
and `slog.Any` applied to an error. -/
inductive AttrValue where
  | str (s : String)
  | int64 (n : Int)
  | any (e : GoError)
  deriving DecidableEq, Repr

/-- Key-value pair `slog.Attr`. -/
structure Attr where
  Key : String
  Value : AttrValue
  deriving DecidableEq, Repr

/-- Request-scoped `context.Context`, opaque to the hook. -/
structure Context where
  id : Nat
  cancelled : Bool
  deriving DecidableEq, Repr

/-- What a handler renders for one `Handle` call: severity, message, and the
attributes bound to the receiving handler through `With` (the hook passes no
attributes in the logging call itself). -/
structure Record where
  Level : Level
  Message : String
  Attrs : List Attr
  deriving DecidableEq, Repr

/-- Calls that reach the `slog.Handler` behind a logger. -/
inductive Call where
  | WithAttrs (attrs : List Attr)
  | Enabled (ctx : Context) (level : Level)
  | Handle (ctx : Context) (r : Record)
  deriving DecidableEq, Repr

/-- Non-nil `*slog.Logger`: the answer of its handler to `Enabled`, and the
attributes bound so far. -/
structure Logger where
  accepts : Context → Level → Bool
  attrs : List Attr

/-- Method `Logger.With`: with no argument the logger itself; otherwise a
logger over `handler.WithAttrs(args)`. -/
def Logger.With (l : Logger) (args : List Attr) : Logger × List Call :=
  if args.isEmpty then (l, [])
  else (Logger.mk l.accepts (l.attrs ++ args), [Call.WithAttrs args])

/-- Method `Logger.log`: ask the handler whether the level is enabled and, if
so, hand it one record together with the context. -/
def Logger.log (l : Logger) (ctx : Context) (level : Level) (msg : String) : List Call :=
  if l.accepts ctx level then
    [Call.Enabled ctx level, Call.Handle ctx (Record.mk level msg l.attrs)]
  else [Call.Enabled ctx level]

/-- Method `Logger.DebugContext`. -/
def Logger.DebugContext (l : Logger) (ctx : Context) (msg : String) : List Call :=
  l.log ctx LevelDebug msg

/-- Method `Logger.InfoContext`. -/
def Logger.InfoContext (l : Logger) (ctx : Context) (msg : String) : List Call :=
  l.log ctx LevelInfo msg

/-- Method `Logger.WarnContext`. -/
def Logger.WarnContext (l : Logger) (ctx : Context) (msg : String) : List Call :=
  l.log ctx LevelWarn msg

/-- Method `Logger.ErrorContext`. -/
def Logger.ErrorContext (l : Logger) (ctx : Context) (msg : String) : List Call :=
  l.log ctx LevelError msg

/-- The fields of `bun.QueryEvent` the hook reads; `Operation` is the result
of the method `event.Operation()`. -/
structure QueryEvent where
  StartTime : Time
  Query : String
  Operation : String
  Err : Option GoError
  deriving DecidableEq, Repr

/-- Process environment as seen by `os.LookupEnv`. -/
abbrev Env := String → Option String

/-! ## bunslog.go -/

/-- Struct `QueryHook`; `logger` is a pointer and may be nil (`none`). -/
structure QueryHook where
  enabled : Bool
  queryLevel : Level
  slowLevel : Level
  errorLevel : Level
  logSlow : Duration
  logger : Option Logger

/-- Type `Option` of bunslog.go: a mutation of the hook. -/
abbrev HookOption := QueryHook → QueryHook

/-- Option `WithEnabled`. -/
def WithEnabled (isOn : Bool) : HookOption :=
  fun h => { h with enabled := isOn }

/-- Loop of `FromEnv`: the first key present in the environment decides. -/
def FromEnv.loop (env : Env) : List String → QueryHook → QueryHook
  | [], h => h
  | key :: rest, h =>
    match env key with
    | some v => { h with enabled := (v != "" && v != "0") }
    | none => FromEnv.loop env rest h

/-- Option `FromEnv`. -/
def FromEnv (env : Env) (keys : List String) : HookOption :=
  let keys := if keys.length == 0 then ["BUNDEBUG"] else keys
  fun h => FromEnv.loop env keys h

/-- Option `WithErrorLevel`. -/
def WithErrorLevel (level : Level) : HookOption :=
  fun h => { h with errorLevel := level }

/-- Option `WithQueryLevel`. -/
def WithQueryLevel (level : Level) : HookOption :=
  fun h => { h with queryLevel := level }

/-- Option `WithSlowLevel`. -/
def WithSlowLevel (level : Level) : HookOption :=
  fun h => { h with slowLevel := level }

/-- Option `WithLogSlow`. -/
def WithLogSlow (duration : Duration) : HookOption :=
  fun h => { h with logSlow := duration }

/-- Option `WithLogger`; the argument may be a nil pointer. -/
def WithLogger (logger : Option Logger) : HookOption :=
  fun h => { h with logger := logger }

/-- Function `defaultQueryHook`; `dflt` is the logger `slog.Default()`
returns. -/
def defaultQueryHook (dflt : Logger) : QueryHook :=
  { enabled := true
    logger := some dflt
    queryLevel := LevelDebug
    slowLevel := LevelWarn
    errorLevel := LevelError
    logSlow := 0 }

/-- Function `NewQueryHook`. -/
def NewQueryHook (dflt : Logger) (options : List HookOption) : QueryHook :=
  options.foldl (fun h opt => opt h) (defaultQueryHook dflt)

/-- What one call of `BeforeQuery` leaves behind: the context it returns, the
hook and the event behind its two pointers after the call, and the calls made
on the sink. -/
structure BeforeQueryResult where
  ctx : Context
  hook : QueryHook
  event : QueryEvent
  calls : List Call

/-- Method `BeforeQuery`: its body is `return ctx`. -/
def BeforeQuery (h : QueryHook) (ctx : Context) (event : QueryEvent) : BeforeQueryResult :=
  BeforeQueryResult.mk ctx h event []

/-- The first `switch` of `AfterQuery` (lines 121-136): the selected level,
the logger carried on, and the handler calls made on the way. -/
def classify (h : QueryHook) (duration : Duration) (logger : Logger)
    (err : Option GoError) : Level × Logger × List Call :=
  match err with
  | none =>
    (if decide (h.logSlow > 0) && decide (duration ≥ h.logSlow) then h.slowLevel
     else h.queryLevel, logger, [])
  | some GoError.ErrNoRows =>
    (if decide (h.logSlow > 0) && decide (duration ≥ h.logSlow) then h.slowLevel
     else h.queryLevel, logger, [])
  | some err =>
    let r := logger.With [Attr.mk "error" (AttrValue.any err)]
    (h.errorLevel, r.1, r.2)

/-- The second `switch` of `AfterQuery` (lines 138-147); `base` is `h.logger`,
`logger` the local variable. -/
def dispatch (base logger : Logger) (level : Level) (ctx : Context) (query : String) :
    List Call :=
  if level = LevelDebug then logger.DebugContext ctx query
  else if level = LevelInfo then logger.InfoContext ctx query
  else if level = LevelWarn then logger.WarnContext ctx query
  else if level = LevelError then base.ErrorContext ctx query
  else []

/-- Method `AfterQuery`, run when the clock reads `now`: the calls it makes on
the sink, or `none` when it does not return normally (`h.logger.With` on a
nil logger dereferences a nil pointer). -/
def AfterQuery (h : QueryHook) (now : Time) (ctx : Context) (event : QueryEvent) :
    Option (List Call) :=
  if !h.enabled then some []
  else
    let duration := Since now event.StartTime
    match h.logger with
    | none => none
    | some base =>
      let w := base.With
        [Attr.mk "operation" (AttrValue.str event.Operation),
         Attr.mk "operation_duration_ms" (AttrValue.int64 (Milliseconds duration))]
      let c := classify h duration w.1 event.Err
      some (w.2 ++ c.2.2 ++ dispatch base c.2.1 c.1 ctx event.Query)

/-! ## Observations on a run -/

/-- The records handed to the sink among a list of handler calls. -/
def records : List Call → List Record
  | [] => []
  | Call.Handle _ r :: rest => r :: records rest
  | _ :: rest => records rest

/-- The records a run of `AfterQuery` emits (none when it does not return). -/
def emitted (run : Option (List Call)) : List Record :=
  match run with
  | none => []
  | some calls => records calls

/-- Whether a list of attributes holds one with the given key. -/
def hasKey (key : String) (attrs : List Attr) : Bool :=
  attrs.any (fun a => a.Key == key)

/-- A sink that accepts every level in every context. -/
def acceptAll : Context → Level → Bool := fun _ _ => true

/-- The two attributes `AfterQuery` binds first (lines 116-119). -/
def callAttrs (now : Time) (event : QueryEvent) : List Attr :=
  [Attr.mk "operation" (AttrValue.str event.Operation),
   Attr.mk "operation_duration_ms"
     (AttrValue.int64 (Milliseconds (Since now event.StartTime)))]

/-- The attributes of a record beyond those the hook's own logger `base`
already had bound: what one call of `AfterQuery` attached. -/
def perCallAttrs (base : Logger) (r : Record) : List Attr :=
  r.Attrs.drop base.attrs.length

/-- Logger over the recording handler of `bunslog_test.go`: `Enabled` answers
true, nothing is bound. -/
def mockLogger : Logger := Logger.mk acceptAll []

/-- Context `context.Background()`. -/
def background : Context := Context.mk 0 false

/-- Logger over a handler that refuses every level below `slog.LevelInfo`,
as the handler behind `slog.Default()` does out of the box; nothing is
bound. -/
def infoLogger : Logger := Logger.mk (fun _ lv => decide (LevelInfo ≤ lv)) []

/-- The variables `FromEnv(keys...)` looks up (lines 27-29): the keys given,
or `BUNDEBUG` when none is given. -/
def envKeys (keys : List String) : List String :=
  if keys.length == 0 then ["BUNDEBUG"] else keys

/-- An environment holding exactly the listed variables; the first binding
of a name counts. -/
def envOf (vars : List (String × String)) : Env :=
  fun k => (vars.find? (fun kv => kv.1 == k)).map (fun kv => kv.2)

/-! ## Lemmas on the sink model -/

theorem records_append (xs ys : List Call) :
    records (xs ++ ys) = records xs ++ records ys := by
  induction xs with
  | nil => simp [records]
  | cons c rest ih => cases c <;> simp [records, ih]

theorem records_log (l : Logger) (ctx : Context) (level : Level) (msg : String) :
    records (l.log ctx level msg)
      = if l.accepts ctx level then [Record.mk level msg l.attrs] else [] := by
  unfold Logger.log
  split <;> simp [records]

theorem records_With (l : Logger) (args : List Attr) : records (l.With args).2 = [] := by
  unfold Logger.With
  split <;> simp [records]

theorem classify_records (h : QueryHook) (d : Duration) (lg : Logger) (err : Option GoError) :
    records (classify h d lg err).2.2 = [] := by
  unfold classify
  split
  · simp [records]
  · simp [records]
  · exact records_With _ _

theorem classify_accepts (h : QueryHook) (d : Duration) (lg : Logger) (err : Option GoError) :
    (classify h d lg err).2.1.accepts = lg.accepts := by
  unfold classify
  split
  · rfl
  · rfl
  · simp [Logger.With]

theorem classify_failure (h : QueryHook) (d : Duration) (lg : Logger) (e : GoError)
    (hNe : e ≠ GoError.ErrNoRows) :
    classify h d lg (some e)
      = (h.errorLevel, Logger.mk lg.accepts (lg.attrs ++ [Attr.mk "error" (AttrValue.any e)]),
         [Call.WithAttrs [Attr.mk "error" (AttrValue.any e)]]) := by
  cases e with
  | ErrNoRows => exact absurd rfl hNe
  | errorString s => simp [classify, Logger.With]
  | wrapError m inner => simp [classify, Logger.With]

theorem classify_success (h : QueryHook) (d : Duration) (lg : Logger) (err : Option GoError)
    (hErr : err = none ∨ err = some GoError.ErrNoRows) :
    classify h d lg err
      = (if decide (h.logSlow > 0) && decide (d ≥ h.logSlow) then h.slowLevel
         else h.queryLevel, lg, []) := by
  rcases hErr with hErr | hErr <;> subst hErr <;> simp [classify]

theorem dispatch_records (base lg : Logger) (level : Level) (ctx : Context) (q : String) :
    ∀ r ∈ records (dispatch base lg level ctx q), r.Level = level ∧ r.Message = q := by
  intro r hr
  unfold dispatch at hr
  split at hr
  · next hl =>
    rw [Logger.DebugContext, records_log] at hr
    split at hr <;> simp at hr
    subst hr; exact ⟨hl.symm, rfl⟩
  · split at hr
    · next hl =>
      rw [Logger.InfoContext, records_log] at hr
      split at hr <;> simp at hr
      subst hr; exact ⟨hl.symm, rfl⟩
    · split at hr
      · next hl =>
        rw [Logger.WarnContext, records_log] at hr
        split at hr <;> simp at hr
        subst hr; exact ⟨hl.symm, rfl⟩
      · split at hr
        · next hl =>
          rw [Logger.ErrorContext, records_log] at hr
          split at hr <;> simp at hr
          subst hr; exact ⟨hl.symm, rfl⟩
        · simp [records] at hr

theorem AfterQuery_disabled (h : QueryHook) (now : Time) (ctx : Context) (event : QueryEvent)
    (hOff : h.enabled = false) : AfterQuery h now ctx event = some [] := by
  simp [AfterQuery, hOff]

theorem AfterQuery_nil_logger (h : QueryHook) (now : Time) (ctx : Context) (event : QueryEvent)
    (hOn : h.enabled = true) (hNil : h.logger = none) : AfterQuery h now ctx event = none := by
  simp [AfterQuery, hOn, hNil]

theorem AfterQuery_enabled (h : QueryHook) (now : Time) (ctx : Context) (event : QueryEvent)
    (base : Logger) (hOn : h.enabled = true) (hLg : h.logger = some base) :
    AfterQuery h now ctx event
      = some (Call.WithAttrs (callAttrs now event)
          :: ((classify h (Since now event.StartTime)
                (Logger.mk base.accepts (base.attrs ++ callAttrs now event)) event.Err).2.2
              ++ dispatch base
                  (classify h (Since now event.StartTime)
                    (Logger.mk base.accepts (base.attrs ++ callAttrs now event)) event.Err).2.1
                  (classify h (Since now event.StartTime)
                    (Logger.mk base.accepts (base.attrs ++ callAttrs now event)) event.Err).1
                  ctx event.Query)) := by
  simp [AfterQuery, hOn, hLg, Logger.With, callAttrs]

theorem emitted_AfterQuery (h : QueryHook) (now : Time) (ctx : Context) (event : QueryEvent)
    (base : Logger) (hOn : h.enabled = true) (hLg : h.logger = some base) :
    emitted (AfterQuery h now ctx event)
      = records (dispatch base
          (classify h (Since now event.StartTime)
            (Logger.mk base.accepts (base.attrs ++ callAttrs now event)) event.Err).2.1
          (classify h (Since now event.StartTime)
            (Logger.mk base.accepts (base.attrs ++ callAttrs now event)) event.Err).1
          ctx event.Query) := by
  rw [AfterQuery_enabled h now ctx event base hOn hLg]
  simp [emitted, records, records_append, classify_records]

/-- Every record `AfterQuery` emits has the level the first `switch` selected
and the query text as message. -/
theorem emitted_level_message (h : QueryHook) (now : Time) (ctx : Context)
    (event : QueryEvent) (lg : Logger) :
    ∀ r ∈ emitted (AfterQuery h now ctx event),
      r.Level = (classify h (Since now event.StartTime) lg event.Err).1
        ∧ r.Message = event.Query := by
  intro r hr
  cases hOn : h.enabled with
  | false => simp [AfterQuery_disabled h now ctx event hOn, emitted, records] at hr
  | true =>
    cases hLg : h.logger with
    | none => simp [AfterQuery_nil_logger h now ctx event hOn hLg, emitted] at hr
    | some base =>
      rw [emitted_AfterQuery h now ctx event base hOn hLg] at hr
      have := dispatch_records _ _ _ _ _ r hr
      refine ⟨?_, this.2⟩
      rw [this.1]
      unfold classify
      split <;> rfl

theorem Since_self_sub (now d : Int) (h1 : minDuration ≤ d) (h2 : d ≤ maxDuration) :
    Since now (now - d) = d := by
  unfold Since
  have e : now - (now - d) = d := by ring
  rw [e]
  rw [if_neg (not_lt.mpr h1), if_neg (not_lt.mpr h2)]

theorem default_hook_eq (dflt : Logger) (l : Option Logger) :
    NewQueryHook dflt [WithLogger l]
      = QueryHook.mk true LevelDebug LevelWarn LevelError 0 l := rfl

theorem log_no_WithAttrs (l : Logger) (ctx : Context) (level : Level) (msg : String)
    (attrs : List Attr) : Call.WithAttrs attrs ∉ l.log ctx level msg := by
  unfold Logger.log
  split <;> simp

theorem dispatch_no_WithAttrs (base lg : Logger) (level : Level) (ctx : Context)
    (q : String) (attrs : List Attr) : Call.WithAttrs attrs ∉ dispatch base lg level ctx q := by
  unfold dispatch Logger.DebugContext Logger.InfoContext Logger.WarnContext
    Logger.ErrorContext
  repeat' split
  all_goals first | exact log_no_WithAttrs _ _ _ _ _ | simp

theorem dispatch_attrs (base lg : Logger) (level : Level) (ctx : Context) (q : String) :
    ∀ r ∈ records (dispatch base lg level ctx q),
      (level = LevelError → r.Attrs = base.attrs)
        ∧ (level ≠ LevelError → r.Attrs = lg.attrs) := by
  intro r hr
  unfold dispatch at hr
  split at hr
  · next hl =>
    rw [Logger.DebugContext, records_log] at hr
    split at hr <;> simp at hr
    subst hr; subst hl
    exact ⟨fun hc => absurd hc (by decide), fun _ => rfl⟩
  · split at hr
    · next hl =>
      rw [Logger.InfoContext, records_log] at hr
      split at hr <;> simp at hr
      subst hr; subst hl
      exact ⟨fun hc => absurd hc (by decide), fun _ => rfl⟩
    · split at hr
      · next hl =>
        rw [Logger.WarnContext, records_log] at hr
        split at hr <;> simp at hr
        subst hr; subst hl
        exact ⟨fun hc => absurd hc (by decide), fun _ => rfl⟩
      · split at hr
        · next hl =>
          rw [Logger.ErrorContext, records_log] at hr
          split at hr <;> simp at hr
          subst hr
          exact ⟨fun _ => rfl, fun hc => absurd hl hc⟩
        · simp [records] at hr

theorem perCallAttrs_append (base : Logger) (r : Record) (xs : List Attr)
    (hr : r.Attrs = base.attrs ++ xs) : perCallAttrs base r = xs := by
  simp [perCallAttrs, hr]

theorem perCallAttrs_base (base : Logger) (r : Record) (hr : r.Attrs = base.attrs) :
    perCallAttrs base r = [] := by
  simp [perCallAttrs, hr]

theorem FromEnv_loop_first (env : Env) (h : QueryHook) (key v : String) (post : List String)
    (hKey : env key = some v) :
    ∀ pre : List String, (∀ k ∈ pre, env k = none) →
      FromEnv.loop env (pre ++ key :: post) h
        = QueryHook.mk (v != "" && v != "0") h.queryLevel h.slowLevel h.errorLevel
            h.logSlow h.logger := by
  intro pre
  induction pre with
  | nil => intro _; simp [FromEnv.loop, hKey]
  | cons k rest ih =>
    intro hAbs
    have hk : env k = none := hAbs k (List.mem_cons_self _ _)
    simp only [List.cons_append, FromEnv.loop, hk]
    exact ih (fun k2 hk2 => hAbs k2 (List.mem_cons_of_mem _ hk2))

theorem FromEnv_first (env : Env) (h : QueryHook) (key v : String) (pre post : List String)
    (hKey : env key = some v) (hAbs : ∀ k ∈ pre, env k = none) :
    FromEnv env (pre ++ key :: post) h
      = QueryHook.mk (v != "" && v != "0") h.queryLevel h.slowLevel h.errorLevel
          h.logSlow h.logger := by
  unfold FromEnv
  have hLen : ((pre ++ key :: post).length == 0) = false := by simp
  simp only [hLen]
  exact FromEnv_loop_first env h key v post hKey pre hAbs

theorem classify_attrs (h : QueryHook) (d : Duration) (lg : Logger) (err : Option GoError) :
    (classify h d lg err).2.1.attrs = lg.attrs
      ∨ ∃ e, err = some e ∧ e ≠ GoError.ErrNoRows
          ∧ (classify h d lg err).2.1.attrs
              = lg.attrs ++ [Attr.mk "error" (AttrValue.any e)] := by
  cases err with
  | none => left; rfl
  | some e =>
    by_cases he : e = GoError.ErrNoRows
    · subst he; left; rfl
    · right
      exact ⟨e, rfl, he, by rw [classify_failure h d lg e he]⟩

theorem emitted_perCallAttrs (h : QueryHook) (now : Time) (ctx : Context) (event : QueryEvent)
    (base : Logger) (hLg : h.logger = some base) :
    ∀ r ∈ emitted (AfterQuery h now ctx event),
      perCallAttrs base r = []
        ∨ perCallAttrs base r = callAttrs now event
        ∨ ∃ e, event.Err = some e ∧ e ≠ GoError.ErrNoRows
            ∧ perCallAttrs base r
                = callAttrs now event ++ [Attr.mk "error" (AttrValue.any e)] := by
  intro r hr
  cases hOn : h.enabled with
  | false => simp [AfterQuery_disabled _ now ctx _ hOn, emitted, records] at hr
  | true =>
    rw [emitted_AfterQuery _ now ctx _ base hOn hLg] at hr
    have hA := dispatch_attrs _ _ _ _ _ r hr
    by_cases hE : (classify h (Since now event.StartTime)
        (Logger.mk base.accepts (base.attrs ++ callAttrs now event)) event.Err).1 = LevelError
    · exact Or.inl (perCallAttrs_base base r (hA.1 hE))
    · have hr2 := hA.2 hE
      rcases classify_attrs h (Since now event.StartTime)
          (Logger.mk base.accepts (base.attrs ++ callAttrs now event)) event.Err with hc | hc
      · rw [hc] at hr2
        exact Or.inr (Or.inl (perCallAttrs_append base r _ hr2))
      · obtain ⟨e, he, hne, hc⟩ := hc
        rw [hc] at hr2
        refine Or.inr (Or.inr ⟨e, he, hne, perCallAttrs_append base r _ ?_⟩)
        rw [hr2]
        simp

/-! ## Severity selection -/

/-- C1: for an event whose `Err` is non-nil and not `sql.ErrNoRows`, the
level `AfterQuery` selects is `errorLevel`, for every hook, clock reading,
duration and threshold, and every record it emits has that level.  For the
hook `NewQueryHook(WithLogger(l))` over a sink that accepts the level, it
emits exactly one record, at `slog.LevelError`, with message `event.Query`. -/
theorem C1_failure_selects_errorLevel (h : QueryHook) (now : Time) (ctx : Context)
    (event : QueryEvent) (e : GoError) (hErr : event.Err = some e)
    (hNe : e ≠ GoError.ErrNoRows) :
    (∀ lg : Logger, (classify h (Since now event.StartTime) lg event.Err).1 = h.errorLevel)
    ∧ (∀ r ∈ emitted (AfterQuery h now ctx event), r.Level = h.errorLevel)
    ∧ (∀ dflt l : Logger, l.accepts ctx LevelError = true →
        ∃ r, emitted (AfterQuery (NewQueryHook dflt [WithLogger (some l)]) now ctx event) = [r]
          ∧ r.Level = LevelError ∧ r.Message = event.Query) := by
  have hSel : ∀ (g : QueryHook) (lg : Logger),
      (classify g (Since now event.StartTime) lg event.Err).1 = g.errorLevel := by
    intro g lg
    rw [hErr, classify_failure g _ lg e hNe]
  refine ⟨hSel h, ?_, ?_⟩
  · intro r hr
    have := (emitted_level_message h now ctx event mockLogger r hr).1
    rw [this, hSel]
  · intro dflt l hAcc
    refine ⟨Record.mk LevelError event.Query l.attrs, ?_, rfl, rfl⟩
    rw [default_hook_eq, emitted_AfterQuery _ now ctx event l rfl rfl, hErr,
      classify_failure _ _ _ e hNe]
    simp [dispatch, LevelError, LevelDebug, LevelInfo, LevelWarn, Logger.ErrorContext,
      records_log]
    exact hAcc

/-- Witness of C1 on the event of `TestQueryHook_ErrorLogging`. -/
theorem C1_failure_selects_errorLevel_witness :
    ∃ r, emitted (AfterQuery (NewQueryHook mockLogger [WithLogger (some mockLogger)]) 5
        background (QueryEvent.mk 5 "SELECT 1" "SELECT" (some (GoError.errorString "fail"))))
        = [r] ∧ r.Level = LevelError ∧ r.Message = "SELECT 1" :=
  (C1_failure_selects_errorLevel
    (NewQueryHook mockLogger [WithLogger (some mockLogger)]) 5 background
    (QueryEvent.mk 5 "SELECT 1" "SELECT" (some (GoError.errorString "fail")))
    (GoError.errorString "fail") rfl (by decide)).2.2 mockLogger mockLogger rfl

/-- C2: for an event with `Err = nil`, when the slow threshold is non-positive
or the duration is strictly below it, every record `AfterQuery` emits has
level `queryLevel`.  For `NewQueryHook(WithLogger(l))` (threshold 0) over a
sink that accepts the level, it emits exactly one record, at
`slog.LevelDebug`, with message `event.Query`. -/
theorem C2_fast_success_queryLevel (h : QueryHook) (now : Time) (ctx : Context)
    (event : QueryEvent) (hErr : event.Err = none)
    (hFast : h.logSlow ≤ 0 ∨ Since now event.StartTime < h.logSlow) :
    (∀ lg : Logger, (classify h (Since now event.StartTime) lg event.Err).1 = h.queryLevel)
    ∧ (∀ r ∈ emitted (AfterQuery h now ctx event), r.Level = h.queryLevel)
    ∧ (∀ dflt l : Logger, l.accepts ctx LevelDebug = true →
        ∃ r, emitted (AfterQuery (NewQueryHook dflt [WithLogger (some l)]) now ctx event) = [r]
          ∧ r.Level = LevelDebug ∧ r.Message = event.Query) := by
  have hSel : ∀ lg : Logger,
      (classify h (Since now event.StartTime) lg event.Err).1 = h.queryLevel := by
    intro lg
    rw [classify_success h _ lg _ (Or.inl hErr)]
    have hc : (decide (h.logSlow > 0) && decide (Since now event.StartTime ≥ h.logSlow))
        = false := by
      rcases hFast with hf | hf
      · simp [not_lt.mpr hf]
      · simp [hf]
    simp [hc]
  refine ⟨hSel, ?_, ?_⟩
  · intro r hr
    have := (emitted_level_message h now ctx event mockLogger r hr).1
    rw [this, hSel]
  · intro dflt l hAcc
    refine ⟨Record.mk LevelDebug event.Query (l.attrs ++ callAttrs now event), ?_, rfl, rfl⟩
    rw [default_hook_eq, emitted_AfterQuery _ now ctx event l rfl rfl,
      classify_success _ _ _ _ (Or.inl hErr)]
    simp [dispatch, Logger.DebugContext, records_log]
    exact hAcc

/-- Witness of C2 on the event of `TestQueryHook_NormalQueryLogging`. -/
theorem C2_fast_success_queryLevel_witness :
    ∃ r, emitted (AfterQuery (NewQueryHook mockLogger [WithLogger (some mockLogger)]) 5
        background (QueryEvent.mk 5 "SELECT 3" "SELECT" none))
        = [r] ∧ r.Level = LevelDebug ∧ r.Message = "SELECT 3" :=
  (C2_fast_success_queryLevel
    (NewQueryHook mockLogger [WithLogger (some mockLogger)]) 5 background
    (QueryEvent.mk 5 "SELECT 3" "SELECT" none) rfl
    (Or.inl (by decide))).2.2 mockLogger mockLogger rfl

/-- C3: for a hook with slow threshold `logSlow > 0` and an event with
`Err = nil` whose duration is at least `logSlow` (the boundary included),
every record `AfterQuery` emits has level `slowLevel`.  For
`NewQueryHook(WithLogger(l), WithLogSlow(1ms))` over a sink that accepts the
level and an event started 10ms before now, it emits exactly one record, at
`slog.LevelWarn`, with message `event.Query`. -/
theorem C3_slow_success_slowLevel (h : QueryHook) (now : Time) (ctx : Context)
    (event : QueryEvent) (hErr : event.Err = none) (hPos : 0 < h.logSlow)
    (hSlow : h.logSlow ≤ Since now event.StartTime) :
    (∀ lg : Logger, (classify h (Since now event.StartTime) lg event.Err).1 = h.slowLevel)
    ∧ (∀ r ∈ emitted (AfterQuery h now ctx event), r.Level = h.slowLevel)
    ∧ (∀ (dflt l : Logger) (ev : QueryEvent), l.accepts ctx LevelWarn = true →
        ev.Err = none → ev.StartTime = now - 10 * Millisecond →
        ∃ r, emitted (AfterQuery
              (NewQueryHook dflt [WithLogger (some l), WithLogSlow (1 * Millisecond)])
              now ctx ev) = [r]
          ∧ r.Level = LevelWarn ∧ r.Message = ev.Query) := by
  have hSel : ∀ lg : Logger,
      (classify h (Since now event.StartTime) lg event.Err).1 = h.slowLevel := by
    intro lg
    rw [classify_success h _ lg _ (Or.inl hErr)]
    simp [hPos, hSlow]
  refine ⟨hSel, ?_, ?_⟩
  · intro r hr
    have := (emitted_level_message h now ctx event mockLogger r hr).1
    rw [this, hSel]
  · intro dflt l ev hAcc hNil hStart
    refine ⟨Record.mk LevelWarn ev.Query (l.attrs ++ callAttrs now ev), ?_, rfl, rfl⟩
    have hHook : NewQueryHook dflt [WithLogger (some l), WithLogSlow (1 * Millisecond)]
        = QueryHook.mk true LevelDebug LevelWarn LevelError (1 * Millisecond) (some l) := rfl
    have hD : Since now ev.StartTime = 10 * Millisecond := by
      rw [hStart]
      exact Since_self_sub now _ (by decide) (by decide)
    rw [hHook, emitted_AfterQuery _ now ctx ev l rfl rfl,
      classify_success _ _ _ _ (Or.inl hNil), hD]
    simp [dispatch, Logger.WarnContext, records_log, Millisecond, LevelWarn, LevelDebug,
      LevelInfo]
    exact hAcc

/-- Witness of C3 on the event of `TestQueryHook_SlowQueryLogging`, and on the
boundary where the duration equals the threshold. -/
theorem C3_slow_success_slowLevel_witness :
    (∃ r, emitted (AfterQuery
          (NewQueryHook mockLogger [WithLogger (some mockLogger), WithLogSlow (1 * Millisecond)])
          20000000 background (QueryEvent.mk (20000000 - 10 * Millisecond) "SELECT 2" "SELECT" none))
        = [r] ∧ r.Level = LevelWarn ∧ r.Message = "SELECT 2")
    ∧ (∀ r ∈ emitted (AfterQuery
          (NewQueryHook mockLogger [WithLogger (some mockLogger), WithLogSlow (1 * Millisecond)])
          1000000 background (QueryEvent.mk 0 "SELECT 2" "SELECT" none)),
        r.Level = LevelWarn) :=
  ⟨(C3_slow_success_slowLevel
      (NewQueryHook mockLogger [WithLogger (some mockLogger), WithLogSlow (1 * Millisecond)])
      20000000 background
      (QueryEvent.mk (20000000 - 10 * Millisecond) "SELECT 2" "SELECT" none) rfl
      (by decide) (by decide)).2.2 mockLogger mockLogger
      (QueryEvent.mk (20000000 - 10 * Millisecond) "SELECT 2" "SELECT" none) rfl rfl rfl,
   (C3_slow_success_slowLevel
      (NewQueryHook mockLogger [WithLogger (some mockLogger), WithLogSlow (1 * Millisecond)])
      1000000 background (QueryEvent.mk 0 "SELECT 2" "SELECT" none) rfl
      (by decide) (by decide)).2.1⟩

/-- C4: on an event whose `Err` is `sql.ErrNoRows`, `AfterQuery` makes exactly
the calls it makes on the same event with `Err = nil` (same records, levels,
messages, attributes); the level selected is `slowLevel` when the threshold
is positive and reached and `queryLevel` otherwise, never through the
`errorLevel` branch; and no `error` attribute is bound or carried. -/
theorem C4_noRows_same_as_nil (h : QueryHook) (now : Time) (ctx : Context)
    (event : QueryEvent) :
    AfterQuery h now ctx { event with Err := some GoError.ErrNoRows }
        = AfterQuery h now ctx { event with Err := none }
    ∧ (∀ lg : Logger,
        (classify h (Since now event.StartTime) lg (some GoError.ErrNoRows)).1
          = if 0 < h.logSlow ∧ h.logSlow ≤ Since now event.StartTime then h.slowLevel
            else h.queryLevel)
    ∧ (∀ calls, AfterQuery h now ctx { event with Err := some GoError.ErrNoRows } = some calls →
        ∀ attrs, Call.WithAttrs attrs ∈ calls → hasKey "error" attrs = false)
    ∧ (∀ base, h.logger = some base →
        ∀ r ∈ emitted (AfterQuery h now ctx { event with Err := some GoError.ErrNoRows }),
          hasKey "error" (perCallAttrs base r) = false) := by
  refine ⟨?_, ?_, ?_, ?_⟩
  · simp [AfterQuery, classify]
  · intro lg
    rw [classify_success h _ lg _ (Or.inr rfl)]
    by_cases hc : 0 < h.logSlow ∧ h.logSlow ≤ Since now event.StartTime
    · simp [hc]
    · rw [if_neg hc]
      simp only [not_and_or, not_lt, not_le] at hc
      rcases hc with hc | hc
      · simp [not_lt.mpr hc]
      · simp [hc]
  · intro calls hCalls attrs hMem
    cases hOn : h.enabled with
    | false =>
      rw [AfterQuery_disabled _ now ctx _ hOn] at hCalls
      cases hCalls
      simp at hMem
    | true =>
      cases hLg : h.logger with
      | none =>
        rw [AfterQuery_nil_logger _ now ctx _ hOn hLg] at hCalls
        cases hCalls
      | some base =>
        rw [AfterQuery_enabled _ now ctx _ base hOn hLg] at hCalls
        cases hCalls
        rw [classify_success h _ _ _ (Or.inr rfl)] at hMem
        simp only [List.nil_append, List.mem_cons] at hMem
        rcases hMem with hMem | hMem
        · cases hMem
          simp [hasKey, callAttrs]
        · exact absurd hMem (dispatch_no_WithAttrs _ _ _ _ _ _)
  · intro base hLg r hr
    cases hOn : h.enabled with
    | false => simp [AfterQuery_disabled _ now ctx _ hOn, emitted, records] at hr
    | true =>
      rw [emitted_AfterQuery _ now ctx _ base hOn hLg,
        classify_success h _ _ _ (Or.inr rfl)] at hr
      have hA := dispatch_attrs _ _ _ _ _ r hr
      by_cases hE : (if decide (h.logSlow > 0)
          && decide (Since now event.StartTime ≥ h.logSlow) then h.slowLevel
          else h.queryLevel) = LevelError
      · rw [perCallAttrs_base base r (hA.1 hE)]
        rfl
      · rw [perCallAttrs_append base r _ (hA.2 hE)]
        simp [hasKey, callAttrs]

/-- Witness of C4 (scenario E): the default hook logs a "no rows" outcome as
it logs a success, one record at `slog.LevelDebug`. -/
theorem C4_noRows_same_as_nil_witness :
    AfterQuery (NewQueryHook mockLogger []) 5 background
        (QueryEvent.mk 5 "SELECT 1" "SELECT" (some GoError.ErrNoRows))
      = AfterQuery (NewQueryHook mockLogger []) 5 background
        (QueryEvent.mk 5 "SELECT 1" "SELECT" none)
    ∧ emitted (AfterQuery (NewQueryHook mockLogger []) 5 background
        (QueryEvent.mk 5 "SELECT 1" "SELECT" (some GoError.ErrNoRows)))
      = [Record.mk LevelDebug "SELECT 1"
          [Attr.mk "operation" (AttrValue.str "SELECT"),
           Attr.mk "operation_duration_ms" (AttrValue.int64 0)]] :=
  ⟨(C4_noRows_same_as_nil (NewQueryHook mockLogger []) 5 background
    (QueryEvent.mk 5 "SELECT 1" "SELECT" none)).1, rfl⟩

/-- C5: a hook whose `enabled` flag is false, set by `WithEnabled(false)` or
by `FromEnv` when the first present variable holds "" or "0", makes no call
on the sink at all in `AfterQuery`: no record, no attribute bound, for every
event and clock reading. -/
theorem C5_disabled_emits_nothing (h0 : QueryHook) (now : Time) (ctx : Context)
    (event : QueryEvent) :
    (∀ h : QueryHook, h.enabled = false → AfterQuery h now ctx event = some [])
    ∧ AfterQuery (WithEnabled false h0) now ctx event = some []
    ∧ (∀ (env : Env) (pre post : List String) (key v : String),
        (∀ k ∈ pre, env k = none) → env key = some v → (v = "" ∨ v = "0") →
        AfterQuery (FromEnv env (pre ++ key :: post) h0) now ctx event = some [])
    ∧ (∀ (env : Env) (v : String), env "BUNDEBUG" = some v → (v = "" ∨ v = "0") →
        AfterQuery (FromEnv env [] h0) now ctx event = some []) := by
  refine ⟨fun h hOff => AfterQuery_disabled h now ctx event hOff, ?_, ?_, ?_⟩
  · exact AfterQuery_disabled _ now ctx event rfl
  · intro env pre post key v hAbs hKey hv
    apply AfterQuery_disabled
    rw [FromEnv_first env h0 key v pre post hKey hAbs]
    rcases hv with hv | hv <;> subst hv <;> rfl
  · intro env v hKey hv
    apply AfterQuery_disabled
    have := FromEnv_first env h0 "BUNDEBUG" v [] [] hKey (by simp)
    have hE : FromEnv env [] h0 = FromEnv env ([] ++ "BUNDEBUG" :: []) h0 := rfl
    rw [hE, this]
    rcases hv with hv | hv <;> subst hv <;> rfl

/-- Witness of C5: a failing query (scenario D) on a hook disabled by
`BUNDEBUG=0`. -/
theorem C5_disabled_emits_nothing_witness :
    AfterQuery
      (FromEnv (fun k => if k = "BUNDEBUG" then some "0" else none) ([] ++ "BUNDEBUG" :: [])
        (NewQueryHook mockLogger [WithLogger (some mockLogger)]))
      5 background (QueryEvent.mk 5 "SELECT 1" "SELECT" (some (GoError.errorString "fail")))
      = some [] :=
  (C5_disabled_emits_nothing (NewQueryHook mockLogger [WithLogger (some mockLogger)]) 5
    background (QueryEvent.mk 5 "SELECT 1" "SELECT" (some (GoError.errorString "fail")))).2.2.1
    (fun k => if k = "BUNDEBUG" then some "0" else none) [] [] "BUNDEBUG" "0"
    (by simp) (by simp) (Or.inr rfl)

/-! ## Attributes and emission -/

/-- C6 (the code at the failing input): when `errorLevel` is
`slog.LevelError`, as in the default configuration, a failing event makes
`AfterQuery` bind the `error` attribute to its local logger and then log
through `h.logger`; the one record the sink receives carries no `error`
attribute. -/
theorem C6_error_record_lacks_error (h : QueryHook) (now : Time) (ctx : Context)
    (event : QueryEvent) (base : Logger) (e : GoError)
    (hOn : h.enabled = true) (hLg : h.logger = some base)
    (hLevel : h.errorLevel = LevelError) (hErr : event.Err = some e)
    (hNe : e ≠ GoError.ErrNoRows) (hAcc : base.accepts ctx LevelError = true) :
    AfterQuery h now ctx event
        = some [Call.WithAttrs (callAttrs now event),
                Call.WithAttrs [Attr.mk "error" (AttrValue.any e)],
                Call.Enabled ctx LevelError,
                Call.Handle ctx (Record.mk LevelError event.Query base.attrs)]
    ∧ ∀ r ∈ emitted (AfterQuery h now ctx event),
        r.Level = h.errorLevel ∧ hasKey "error" (perCallAttrs base r) = false := by
  have hRun : AfterQuery h now ctx event
      = some [Call.WithAttrs (callAttrs now event),
              Call.WithAttrs [Attr.mk "error" (AttrValue.any e)],
              Call.Enabled ctx LevelError,
              Call.Handle ctx (Record.mk LevelError event.Query base.attrs)] := by
    rw [AfterQuery_enabled h now ctx event base hOn hLg, hErr, classify_failure h _ _ e hNe]
    simp [hLevel, dispatch, LevelError, LevelDebug, LevelInfo, LevelWarn, Logger.ErrorContext,
      Logger.log]
    exact hAcc
  refine ⟨hRun, ?_⟩
  intro r hr
  rw [hRun] at hr
  simp [emitted, records] at hr
  subst hr
  exact ⟨hLevel.symm, by simp [perCallAttrs, hasKey]⟩

/-- Witness of C6: the default hook over the recording sink, on the event of
`TestQueryHook_ErrorLogging`. -/
theorem C6_error_record_lacks_error_witness :
    emitted (AfterQuery (NewQueryHook mockLogger [WithLogger (some mockLogger)]) 5 background
        (QueryEvent.mk 5 "SELECT 1" "SELECT" (some (GoError.errorString "fail"))))
      = [Record.mk LevelError "SELECT 1" []] := by
  rw [(C6_error_record_lacks_error
    (NewQueryHook mockLogger [WithLogger (some mockLogger)]) 5 background
    (QueryEvent.mk 5 "SELECT 1" "SELECT" (some (GoError.errorString "fail")))
    mockLogger (GoError.errorString "fail") rfl rfl rfl rfl (by decide) rfl).1]
  rfl

/-- C7 (the code at the failing input): whenever the selected level is
`slog.LevelError`, the one record `AfterQuery` hands to the sink goes through
`h.logger` and carries neither `operation` nor `operation_duration_ms`. -/
theorem C7_error_level_record_has_no_call_attrs (h : QueryHook) (now : Time) (ctx : Context)
    (event : QueryEvent) (base : Logger)
    (hOn : h.enabled = true) (hLg : h.logger = some base)
    (hSel : ∀ lg : Logger,
      (classify h (Since now event.StartTime) lg event.Err).1 = LevelError)
    (hAcc : base.accepts ctx LevelError = true) :
    emitted (AfterQuery h now ctx event) = [Record.mk LevelError event.Query base.attrs]
    ∧ ∀ r ∈ emitted (AfterQuery h now ctx event),
        hasKey "operation" (perCallAttrs base r) = false
          ∧ hasKey "operation_duration_ms" (perCallAttrs base r) = false := by
  have hRun : emitted (AfterQuery h now ctx event)
      = [Record.mk LevelError event.Query base.attrs] := by
    rw [emitted_AfterQuery h now ctx event base hOn hLg, hSel]
    simp [dispatch, LevelError, LevelDebug, LevelInfo, LevelWarn, Logger.ErrorContext,
      records_log]
    exact hAcc
  refine ⟨hRun, ?_⟩
  intro r hr
  rw [hRun] at hr
  simp at hr
  subst hr
  simp [perCallAttrs, hasKey]

/-- Witness of C7: a successful query on a hook whose `queryLevel` is
`slog.LevelError`. -/
theorem C7_error_level_record_has_no_call_attrs_witness :
    emitted (AfterQuery
        (NewQueryHook mockLogger [WithLogger (some mockLogger), WithQueryLevel LevelError])
        5 background (QueryEvent.mk 5 "SELECT 3" "SELECT" none))
      = [Record.mk LevelError "SELECT 3" []] :=
  (C7_error_level_record_has_no_call_attrs
    (NewQueryHook mockLogger [WithLogger (some mockLogger), WithQueryLevel LevelError])
    5 background (QueryEvent.mk 5 "SELECT 3" "SELECT" none) mockLogger rfl rfl
    (fun _ => rfl) rfl).1

/-- C8 (the code at the failing input): when the selected level is none of
`slog.LevelDebug`, `slog.LevelInfo`, `slog.LevelWarn`, `slog.LevelError`, an
enabled hook binds its attributes and then hands no record to the sink. -/
theorem C8_unnamed_level_emits_nothing (h : QueryHook) (now : Time) (ctx : Context)
    (event : QueryEvent) (base : Logger) (level : Level)
    (hOn : h.enabled = true) (hLg : h.logger = some base)
    (hSel : ∀ lg : Logger,
      (classify h (Since now event.StartTime) lg event.Err).1 = level)
    (hD : level ≠ LevelDebug) (hI : level ≠ LevelInfo) (hW : level ≠ LevelWarn)
    (hE : level ≠ LevelError) :
    emitted (AfterQuery h now ctx event) = [] := by
  rw [emitted_AfterQuery h now ctx event base hOn hLg, hSel]
  simp [dispatch, hD, hI, hW, hE, records]

/-- Witness of C8: `NewQueryHook(WithLogger(l), WithQueryLevel(slog.Level(2)))`
on a successful query. -/
theorem C8_unnamed_level_emits_nothing_witness :
    emitted (AfterQuery
        (NewQueryHook mockLogger [WithLogger (some mockLogger), WithQueryLevel 2])
        5 background (QueryEvent.mk 5 "SELECT 3" "SELECT" none)) = [] :=
  C8_unnamed_level_emits_nothing
    (NewQueryHook mockLogger [WithLogger (some mockLogger), WithQueryLevel 2])
    5 background (QueryEvent.mk 5 "SELECT 3" "SELECT" none) mockLogger 2 rfl rfl
    (fun _ => rfl) (by decide) (by decide) (by decide) (by decide)

/-- C9: the `operation_duration_ms` attribute `AfterQuery` attaches to a
record holds `Milliseconds d` for the duration `d = time.Since(StartTime)`,
which is `now - StartTime` whenever that fits a `time.Duration`; for `d >= 0`
it is the truncated quotient, `ms * 1000000 <= d < (ms + 1) * 1000000`
(1999999 ns gives 1, 999999 ns gives 0), and it is non-negative whenever
`StartTime <= now`. -/
theorem C9_duration_ms_truncates (h : QueryHook) (now : Time) (ctx : Context)
    (event : QueryEvent) (base : Logger) (hLg : h.logger = some base) :
    (∀ r ∈ emitted (AfterQuery h now ctx event), ∀ a ∈ perCallAttrs base r,
        a.Key = "operation_duration_ms" →
        a.Value = AttrValue.int64 (Milliseconds (Since now event.StartTime)))
    ∧ (minDuration ≤ now - event.StartTime → now - event.StartTime ≤ maxDuration →
        Since now event.StartTime = now - event.StartTime)
    ∧ (∀ d : Duration, 0 ≤ d →
        Milliseconds d * 1000000 ≤ d ∧ d < (Milliseconds d + 1) * 1000000)
    ∧ Milliseconds 1999999 = 1 ∧ Milliseconds 999999 = 0
    ∧ (event.StartTime ≤ now →
        0 ≤ Since now event.StartTime ∧ 0 ≤ Milliseconds (Since now event.StartTime)) := by
  have hNonneg : event.StartTime ≤ now → 0 ≤ Since now event.StartTime := by
    intro hle
    have hd : (0 : Int) ≤ now - event.StartTime := sub_nonneg.mpr hle
    unfold Since
    split
    · next hlt => exact absurd (lt_of_le_of_lt hd hlt) (by decide)
    · split
      · decide
      · exact hd
  refine ⟨?_, ?_, ?_, by decide, by decide, ?_⟩
  · intro r hr a ha hKey
    rcases emitted_perCallAttrs h now ctx event base hLg r hr with hp | hp | ⟨e, _, _, hp⟩
    · rw [hp] at ha; simp at ha
    · rw [hp] at ha
      simp only [callAttrs, List.mem_cons, List.mem_singleton, List.not_mem_nil,
        or_false] at ha
      rcases ha with ha | ha
      · subst ha; simp at hKey
      · subst ha; rfl
    · rw [hp] at ha
      simp only [callAttrs, List.cons_append, List.nil_append, List.mem_cons,
        List.mem_singleton, List.not_mem_nil, or_false] at ha
      rcases ha with ha | ha | ha
      · subst ha; simp at hKey
      · subst ha; rfl
      · subst ha; simp at hKey
  · intro h1 h2
    unfold Since
    rw [if_neg (not_lt.mpr h1), if_neg (not_lt.mpr h2)]
  · intro d hd
    unfold Milliseconds
    rw [Int.tdiv_eq_ediv hd (by decide)]
    exact ⟨Int.ediv_mul_le d (by decide), Int.lt_ediv_add_one_mul_self d (by decide)⟩
  · intro hle
    refine ⟨hNonneg hle, ?_⟩
    unfold Milliseconds
    exact Int.tdiv_nonneg (hNonneg hle) (by decide)

/-- Witness of C9: a query that took 1999999 ns is logged with
`operation_duration_ms = 1`. -/
theorem C9_duration_ms_truncates_witness :
    emitted (AfterQuery (NewQueryHook mockLogger []) 1999999 background
        (QueryEvent.mk 0 "SELECT 3" "SELECT" none))
      = [Record.mk LevelDebug "SELECT 3"
          [Attr.mk "operation" (AttrValue.str "SELECT"),
           Attr.mk "operation_duration_ms" (AttrValue.int64 1)]]
    ∧ AttrValue.int64 1
      = AttrValue.int64 (Milliseconds (Since 1999999 (0 : Time))) :=
  ⟨rfl, (C9_duration_ms_truncates (NewQueryHook mockLogger []) 1999999 background
    (QueryEvent.mk 0 "SELECT 3" "SELECT" none) mockLogger rfl).1
    (Record.mk LevelDebug "SELECT 3"
      [Attr.mk "operation" (AttrValue.str "SELECT"),
       Attr.mk "operation_duration_ms" (AttrValue.int64 1)])
    (by decide)
    (Attr.mk "operation_duration_ms" (AttrValue.int64 1)) (by decide) rfl⟩

theorem FromEnv_eq_loop (env : Env) (keys : List String) (h : QueryHook) :
    FromEnv env keys h = FromEnv.loop env (envKeys keys) h := rfl

theorem FromEnv_loop_absent (env : Env) (h : QueryHook) :
    ∀ keys : List String, (∀ k ∈ keys, env k = none) → FromEnv.loop env keys h = h := by
  intro keys
  induction keys with
  | nil => intro _; rfl
  | cons k rest ih =>
    intro hAbs
    have hk : env k = none := hAbs k (List.mem_cons_self _ _)
    simp only [FromEnv.loop, hk]
    exact ih (fun k2 hk2 => hAbs k2 (List.mem_cons_of_mem _ hk2))

theorem NewQueryHook_snoc (dflt : Logger) (options : List HookOption) (o : HookOption) :
    NewQueryHook dflt (options ++ [o]) = o (NewQueryHook dflt options) := by
  simp [NewQueryHook, List.foldl_append]

/-- C11: when a key of `FromEnv(keys)` is present in the environment, the
option sets `enabled` from the value `v` of the first present key alone:
false when `v` is "" or "0", true for every other value; the previous flag
and every later key are ignored, the other fields are kept.  `FromEnv()`
with no key is `FromEnv("BUNDEBUG")`. -/
theorem C11_FromEnv_first_present_decides (env : Env) (h : QueryHook)
    (pre post : List String) (key v : String)
    (hAbs : ∀ k ∈ pre, env k = none) (hKey : env key = some v) :
    ((FromEnv env (pre ++ key :: post) h).enabled = false ↔ (v = "" ∨ v = "0"))
    ∧ ((FromEnv env (pre ++ key :: post) h).enabled = true ↔ (v ≠ "" ∧ v ≠ "0"))
    ∧ FromEnv env (pre ++ key :: post) h
        = QueryHook.mk (v != "" && v != "0") h.queryLevel h.slowLevel h.errorLevel
            h.logSlow h.logger
    ∧ (∀ post2 : List String,
        FromEnv env (pre ++ key :: post2) h = FromEnv env (pre ++ key :: post) h)
    ∧ (∀ g : QueryHook, FromEnv env [] g = FromEnv env ["BUNDEBUG"] g) := by
  have hEq := FromEnv_first env h key v pre post hKey hAbs
  refine ⟨?_, ?_, hEq, ?_, fun _ => rfl⟩
  · rw [hEq]
    by_cases h1 : v = ""
    · simp [h1]
    · by_cases h2 : v = "0"
      · simp [h2]
      · simp [h1, h2]
  · rw [hEq]
    by_cases h1 : v = ""
    · simp [h1]
    · by_cases h2 : v = "0"
      · simp [h2]
      · simp [h1, h2]
  · intro post2
    rw [hEq, FromEnv_first env h key v pre post2 hKey hAbs]

/-- Witness of C11: `A` is absent, `B=false` is the first present key and
enables a disabled hook although the later key `C=0` would disable it. -/
theorem C11_FromEnv_first_present_decides_witness :
    (FromEnv (envOf [("B", "false"), ("C", "0")]) (["A"] ++ "B" :: ["C"])
        (WithEnabled false (defaultQueryHook mockLogger))).enabled = true
    ∧ ("false" ≠ "" ∧ "false" ≠ "0") := by
  have hw := (C11_FromEnv_first_present_decides (envOf [("B", "false"), ("C", "0")])
    (WithEnabled false (defaultQueryHook mockLogger)) ["A"] ["C"] "B" "false"
    (by simp [envOf]) (by simp [envOf])).2.1
  exact ⟨hw.mpr ⟨by decide, by decide⟩, by decide, by decide⟩

/-- C12: when none of the variables `FromEnv(keys)` looks up is present,
applying the option leaves the hook exactly as it was, the `enabled` flag
included, and `NewQueryHook(FromEnv(keys))` is the default hook, which is
enabled. -/
theorem C12_FromEnv_absent_is_identity (env : Env) (keys : List String) (dflt : Logger)
    (hAbs : ∀ k ∈ envKeys keys, env k = none) :
    (∀ h : QueryHook, FromEnv env keys h = h)
    ∧ NewQueryHook dflt [FromEnv env keys] = defaultQueryHook dflt
    ∧ (NewQueryHook dflt [FromEnv env keys]).enabled = true := by
  have hId : ∀ h : QueryHook, FromEnv env keys h = h := by
    intro h
    rw [FromEnv_eq_loop]
    exact FromEnv_loop_absent env h _ hAbs
  refine ⟨hId, ?_, ?_⟩
  · show FromEnv env keys (defaultQueryHook dflt) = defaultQueryHook dflt
    exact hId _
  · show (FromEnv env keys (defaultQueryHook dflt)).enabled = true
    rw [hId]
    rfl

/-- Witness of C12: neither `A` nor `B` is set, a disabled hook stays
disabled and a fresh hook is enabled. -/
theorem C12_FromEnv_absent_is_identity_witness :
    FromEnv (envOf [("C", "0")]) ["A", "B"] (WithEnabled false (defaultQueryHook mockLogger))
        = WithEnabled false (defaultQueryHook mockLogger)
    ∧ (NewQueryHook mockLogger [FromEnv (envOf [("C", "0")]) ["A", "B"]]).enabled = true :=
  ⟨(C12_FromEnv_absent_is_identity (envOf [("C", "0")]) ["A", "B"] mockLogger
      (by simp [envKeys, envOf])).1 _,
   (C12_FromEnv_absent_is_identity (envOf [("C", "0")]) ["A", "B"] mockLogger
      (by simp [envKeys, envOf])).2.2⟩

/-- C13: `NewQueryHook()` with no option is enabled, has `queryLevel =
slog.LevelDebug` (-4), `slowLevel = slog.LevelWarn` (4), `errorLevel =
slog.LevelError` (8), slow threshold 0, and the logger `slog.Default()`; with
threshold 0 no duration ever selects `slowLevel`. -/
theorem C13_NewQueryHook_defaults (dflt : Logger) :
    (NewQueryHook dflt []).enabled = true
    ∧ (NewQueryHook dflt []).queryLevel = LevelDebug ∧ LevelDebug = -4
    ∧ (NewQueryHook dflt []).slowLevel = LevelWarn ∧ LevelWarn = 4
    ∧ (NewQueryHook dflt []).errorLevel = LevelError ∧ LevelError = 8
    ∧ (NewQueryHook dflt []).logSlow = 0
    ∧ (NewQueryHook dflt []).logger = some dflt
    ∧ (∀ (d : Duration) (lg : Logger),
        (classify (NewQueryHook dflt []) d lg none).1 = LevelDebug) := by
  refine ⟨rfl, rfl, rfl, rfl, rfl, rfl, rfl, rfl, rfl, ?_⟩
  intro d lg
  rw [classify_success _ d lg none (Or.inl rfl)]
  rfl

/-- C14: `NewQueryHook(o1, ..., on)` is the left-to-right application of the
options to the default hook (so appending an option applies it last); each of
`WithEnabled`, `WithErrorLevel`, `WithQueryLevel`, `WithSlowLevel`,
`WithLogSlow`, `WithLogger` sets its own field to its argument and keeps the
other five; of two options of one kind the later wins; options of different
kinds commute. -/
theorem C14_options_apply_in_order (dflt : Logger) (h : QueryHook) :
    (∀ options : List HookOption,
        NewQueryHook dflt options = options.foldl (fun g o => o g) (defaultQueryHook dflt))
    ∧ (∀ (options : List HookOption) (o : HookOption),
        NewQueryHook dflt (options ++ [o]) = o (NewQueryHook dflt options))
    ∧ (∀ b : Bool, WithEnabled b h
        = QueryHook.mk b h.queryLevel h.slowLevel h.errorLevel h.logSlow h.logger)
    ∧ (∀ e : Level, WithErrorLevel e h
        = QueryHook.mk h.enabled h.queryLevel h.slowLevel e h.logSlow h.logger)
    ∧ (∀ q : Level, WithQueryLevel q h
        = QueryHook.mk h.enabled q h.slowLevel h.errorLevel h.logSlow h.logger)
    ∧ (∀ s : Level, WithSlowLevel s h
        = QueryHook.mk h.enabled h.queryLevel s h.errorLevel h.logSlow h.logger)
    ∧ (∀ d : Duration, WithLogSlow d h
        = QueryHook.mk h.enabled h.queryLevel h.slowLevel h.errorLevel d h.logger)
    ∧ (∀ l : Option Logger, WithLogger l h
        = QueryHook.mk h.enabled h.queryLevel h.slowLevel h.errorLevel h.logSlow l)
    ∧ (∀ b1 b2 : Bool, WithEnabled b2 (WithEnabled b1 h) = WithEnabled b2 h)
    ∧ (∀ e1 e2 : Level, WithErrorLevel e2 (WithErrorLevel e1 h) = WithErrorLevel e2 h)
    ∧ (∀ q1 q2 : Level, WithQueryLevel q2 (WithQueryLevel q1 h) = WithQueryLevel q2 h)
    ∧ (∀ s1 s2 : Level, WithSlowLevel s2 (WithSlowLevel s1 h) = WithSlowLevel s2 h)
    ∧ (∀ d1 d2 : Duration, WithLogSlow d2 (WithLogSlow d1 h) = WithLogSlow d2 h)
    ∧ (∀ l1 l2 : Option Logger, WithLogger l2 (WithLogger l1 h) = WithLogger l2 h)
    ∧ (∀ (b : Bool) (e : Level), WithEnabled b (WithErrorLevel e h) = WithErrorLevel e (WithEnabled b h))
    ∧ (∀ (b : Bool) (q : Level), WithEnabled b (WithQueryLevel q h) = WithQueryLevel q (WithEnabled b h))
    ∧ (∀ (b : Bool) (s : Level), WithEnabled b (WithSlowLevel s h) = WithSlowLevel s (WithEnabled b h))
    ∧ (∀ (b : Bool) (d : Duration), WithEnabled b (WithLogSlow d h) = WithLogSlow d (WithEnabled b h))
    ∧ (∀ (b : Bool) (l : Option Logger), WithEnabled b (WithLogger l h) = WithLogger l (WithEnabled b h))
    ∧ (∀ (e : Level) (q : Level), WithErrorLevel e (WithQueryLevel q h) = WithQueryLevel q (WithErrorLevel e h))
    ∧ (∀ (e : Level) (s : Level), WithErrorLevel e (WithSlowLevel s h) = WithSlowLevel s (WithErrorLevel e h))
    ∧ (∀ (e : Level) (d : Duration), WithErrorLevel e (WithLogSlow d h) = WithLogSlow d (WithErrorLevel e h))
    ∧ (∀ (e : Level) (l : Option Logger), WithErrorLevel e (WithLogger l h) = WithLogger l (WithErrorLevel e h))
    ∧ (∀ (q : Level) (s : Level), WithQueryLevel q (WithSlowLevel s h) = WithSlowLevel s (WithQueryLevel q h))
    ∧ (∀ (q : Level) (d : Duration), WithQueryLevel q (WithLogSlow d h) = WithLogSlow d (WithQueryLevel q h))
    ∧ (∀ (q : Level) (l : Option Logger), WithQueryLevel q (WithLogger l h) = WithLogger l (WithQueryLevel q h))
    ∧ (∀ (s : Level) (d : Duration), WithSlowLevel s (WithLogSlow d h) = WithLogSlow d (WithSlowLevel s h))
    ∧ (∀ (s : Level) (l : Option Logger), WithSlowLevel s (WithLogger l h) = WithLogger l (WithSlowLevel s h))
    ∧ (∀ (d : Duration) (l : Option Logger), WithLogSlow d (WithLogger l h) = WithLogger l (WithLogSlow d h)) := by
  refine ⟨fun _ => rfl, NewQueryHook_snoc dflt, ?_⟩
  refine ⟨fun _ => rfl, fun _ => rfl, fun _ => rfl, fun _ => rfl, fun _ => rfl,
    fun _ => rfl, ?_⟩
  refine ⟨fun _ _ => rfl, fun _ _ => rfl, fun _ _ => rfl, fun _ _ => rfl, fun _ _ => rfl,
    fun _ _ => rfl, ?_⟩
  refine ⟨fun _ _ => rfl, fun _ _ => rfl, fun _ _ => rfl, fun _ _ => rfl, fun _ _ => rfl,
    fun _ _ => rfl, fun _ _ => rfl, fun _ _ => rfl, fun _ _ => rfl, fun _ _ => rfl,
    fun _ _ => rfl, fun _ _ => rfl, fun _ _ => rfl, fun _ _ => rfl, fun _ _ => rfl⟩

/-- Witness of C14: of two `WithLogSlow` the later wins, whatever stands
between them. -/
theorem C14_options_apply_in_order_witness :
    NewQueryHook mockLogger ([WithLogSlow 5, WithEnabled false] ++ [WithLogSlow 7])
      = QueryHook.mk false LevelDebug LevelWarn LevelError 7 (some mockLogger) :=
  (C14_options_apply_in_order mockLogger (defaultQueryHook mockLogger)).2.1
    [WithLogSlow 5, WithEnabled false] (WithLogSlow 7)

/-! ## Completion and frame -/

theorem AfterQuery_isSome (h : QueryHook) (now : Time) (ctx : Context) (event : QueryEvent) :
    (AfterQuery h now ctx event).isSome = true ↔ (h.enabled = false ∨ h.logger ≠ none) := by
  cases hOn : h.enabled with
  | false => simp [AfterQuery_disabled h now ctx event hOn]
  | true =>
    cases hLg : h.logger with
    | none => simp [AfterQuery_nil_logger h now ctx event hOn hLg]
    | some base => simp [AfterQuery_enabled h now ctx event base hOn hLg]

theorem foldl_keeps_logger (options : List HookOption)
    (hKeep : ∀ o ∈ options, ∀ g : QueryHook, g.logger ≠ none → (o g).logger ≠ none) :
    ∀ g : QueryHook, g.logger ≠ none →
      (options.foldl (fun x o => o x) g).logger ≠ none := by
  induction options with
  | nil => intro g hg; exact hg
  | cons o rest ih =>
    intro g hg
    simp only [List.foldl_cons]
    apply ih (fun o2 ho2 => hKeep o2 (List.mem_cons_of_mem _ ho2))
    exact hKeep o (List.mem_cons_self _ _) g hg

/-- C15 as stated fails: `WithLogger(nil)` leaves the hook with a nil logger,
not with the default one, and `AfterQuery` on that enabled hook does not
return normally (`h.logger.With` dereferences the nil pointer). -/
theorem C15_nil_logger_counterexample :
    (NewQueryHook mockLogger [WithLogger none]).logger = none
    ∧ (NewQueryHook mockLogger [WithLogger none]).enabled = true
    ∧ AfterQuery (NewQueryHook mockLogger [WithLogger none]) 5 background
        (QueryEvent.mk 5 "SELECT 1" "SELECT" none) = none := by
  refine ⟨rfl, rfl, rfl⟩

/-- C15 amended: `AfterQuery` returns normally exactly when the hook is
disabled or its logger is non-nil, for every event and clock reading (a
`StartTime` of any value, past or future).  A hook built by `NewQueryHook`
from options that keep a non-nil logger non-nil has a non-nil logger, the
process-default one when no option replaces it, so `AfterQuery` returns on
it; every option of the package but `WithLogger(nil)` is such an option. -/
theorem C15_completes_unless_nil_logger (dflt : Logger) (now : Time) (ctx : Context)
    (event : QueryEvent) :
    (∀ h : QueryHook,
        (AfterQuery h now ctx event).isSome = true ↔ (h.enabled = false ∨ h.logger ≠ none))
    ∧ (∀ options : List HookOption,
        (∀ o ∈ options, ∀ g : QueryHook, g.logger ≠ none → (o g).logger ≠ none) →
        (NewQueryHook dflt options).logger ≠ none
          ∧ (AfterQuery (NewQueryHook dflt options) now ctx event).isSome = true)
    ∧ (∀ options : List HookOption,
        (∀ o ∈ options, ∀ g : QueryHook, (o g).logger = g.logger) →
        (NewQueryHook dflt options).logger = some dflt)
    ∧ (∀ (g : QueryHook) (b : Bool) (lv : Level) (d : Duration) (env : Env)
        (keys : List String) (l : Logger),
        (WithEnabled b g).logger = g.logger ∧ (WithErrorLevel lv g).logger = g.logger
          ∧ (WithQueryLevel lv g).logger = g.logger ∧ (WithSlowLevel lv g).logger = g.logger
          ∧ (WithLogSlow d g).logger = g.logger ∧ (FromEnv env keys g).logger = g.logger
          ∧ (WithLogger (some l) g).logger = some l) := by
  refine ⟨fun h => AfterQuery_isSome h now ctx event, ?_, ?_, ?_⟩
  · intro options hKeep
    have hL : (NewQueryHook dflt options).logger ≠ none :=
      foldl_keeps_logger options hKeep (defaultQueryHook dflt) (by simp [defaultQueryHook])
    exact ⟨hL, (AfterQuery_isSome _ now ctx event).mpr (Or.inr hL)⟩
  · intro options
    unfold NewQueryHook
    have hGen : ∀ g : QueryHook,
        (∀ o ∈ options, ∀ g : QueryHook, (o g).logger = g.logger) →
        (options.foldl (fun x o => o x) g).logger = g.logger := by
      induction options with
      | nil => intro g _; rfl
      | cons o rest ih =>
        intro g hSame
        simp only [List.foldl_cons]
        rw [ih (o g) (fun o2 ho2 => hSame o2 (List.mem_cons_of_mem _ ho2))]
        exact hSame o (List.mem_cons_self _ _) g
    intro hSame
    rw [hGen _ hSame]
    rfl
  · intro g b lv d env keys l
    refine ⟨rfl, rfl, rfl, rfl, rfl, ?_, rfl⟩
    rw [FromEnv_eq_loop]
    generalize envKeys keys = ks
    induction ks with
    | nil => rfl
    | cons k rest ih =>
      simp only [FromEnv.loop]
      cases env k with
      | none => exact ih
      | some v => rfl

/-- Witness of the amended C15: a hook built without `WithLogger` logs an
event whose `StartTime` lies in the future and returns. -/
theorem C15_completes_unless_nil_logger_witness :
    (AfterQuery (NewQueryHook mockLogger [WithLogSlow 5, WithEnabled true]) 5 background
        (QueryEvent.mk 9000000 "SELECT 1" "SELECT" none)).isSome = true :=
  ((C15_completes_unless_nil_logger mockLogger 5 background
      (QueryEvent.mk 9000000 "SELECT 1" "SELECT" none)).2.1
    [WithLogSlow 5, WithEnabled true]
    (by
      intro o ho g hg
      simp only [List.mem_cons, List.mem_singleton, List.not_mem_nil, or_false] at ho
      rcases ho with ho | ho <;> subst ho <;> exact hg)).2

/-- C16: for every hook, enabled or not, every context and every event,
`BeforeQuery` returns the context it was given, makes no call on the sink (so
emits no record) and leaves the hook and the event as they were. -/
theorem C16_BeforeQuery_is_identity (h : QueryHook) (ctx : Context) (event : QueryEvent) :
    (BeforeQuery h ctx event).ctx = ctx
    ∧ (BeforeQuery h ctx event).calls = []
    ∧ records (BeforeQuery h ctx event).calls = []
    ∧ (BeforeQuery h ctx event).hook = h
    ∧ (BeforeQuery h ctx event).event = event := by
  refine ⟨rfl, rfl, rfl, rfl, rfl⟩

/-! ## What the code does at each level -/

theorem classify_level_indep (h : QueryHook) (d : Duration) (lg lg2 : Logger)
    (err : Option GoError) : (classify h d lg err).1 = (classify h d lg2 err).1 := by
  unfold classify
  split <;> rfl

theorem records_dispatch_named (base lg : Logger) (level : Level) (ctx : Context)
    (q : String) (hB : base.accepts ctx level = true) (hL : lg.accepts ctx level = true) :
    records (dispatch base lg level ctx q)
      = if level = LevelError then [Record.mk level q base.attrs]
        else if level = LevelDebug ∨ level = LevelInfo ∨ level = LevelWarn
          then [Record.mk level q lg.attrs]
        else [] := by
  unfold dispatch Logger.DebugContext Logger.InfoContext Logger.WarnContext
    Logger.ErrorContext
  by_cases hD : level = LevelDebug
  · subst hD
    rw [if_pos rfl, records_log, if_pos hL, if_neg (by decide), if_pos (Or.inl rfl)]
  · rw [if_neg hD]
    by_cases hI : level = LevelInfo
    · subst hI
      rw [if_pos rfl, records_log, if_pos hL, if_neg (by decide), if_pos (Or.inr (Or.inl rfl))]
    · rw [if_neg hI]
      by_cases hW : level = LevelWarn
      · subst hW
        rw [if_pos rfl, records_log, if_pos hL, if_neg (by decide),
          if_pos (Or.inr (Or.inr rfl))]
      · rw [if_neg hW]
        by_cases hE : level = LevelError
        · subst hE
          rw [if_pos rfl, records_log, if_pos hB, if_pos rfl]
        · rw [if_neg hE, if_neg hE, if_neg (by simp [hD, hI, hW])]
          rfl

theorem dispatch_records_named (base lg : Logger) (level : Level) (ctx : Context)
    (q : String) :
    ∀ r ∈ records (dispatch base lg level ctx q),
      level = LevelDebug ∨ level = LevelInfo ∨ level = LevelWarn ∨ level = LevelError := by
  intro r hr
  by_cases hD : level = LevelDebug
  · exact Or.inl hD
  · by_cases hI : level = LevelInfo
    · exact Or.inr (Or.inl hI)
    · by_cases hW : level = LevelWarn
      · exact Or.inr (Or.inr (Or.inl hW))
      · by_cases hE : level = LevelError
        · exact Or.inr (Or.inr (Or.inr hE))
        · simp [dispatch, hD, hI, hW, hE, records] at hr

/-- C17 as stated fails: the default hook over a sink that refuses
`slog.LevelDebug` is enabled and selects `slog.LevelDebug`, one of the four
named levels, for a successful query, yet no record is emitted; the same
holds on an enabled hook whose logger is nil, where `AfterQuery` does not
return. -/
theorem C17_refusing_sink_counterexample :
    (NewQueryHook infoLogger []).enabled = true
    ∧ (classify (NewQueryHook infoLogger []) (Since 5 5) infoLogger none).1 = LevelDebug
    ∧ emitted (AfterQuery (NewQueryHook infoLogger []) 5 background
        (QueryEvent.mk 5 "SELECT 3" "SELECT" none)) = []
    ∧ ¬ (emitted (AfterQuery (NewQueryHook infoLogger []) 5 background
          (QueryEvent.mk 5 "SELECT 3" "SELECT" none)) ≠ [] ↔
        (NewQueryHook infoLogger []).enabled = true
          ∧ ((classify (NewQueryHook infoLogger []) (Since 5 5) infoLogger none).1 = LevelDebug
            ∨ (classify (NewQueryHook infoLogger []) (Since 5 5) infoLogger none).1 = LevelInfo
            ∨ (classify (NewQueryHook infoLogger []) (Since 5 5) infoLogger none).1 = LevelWarn
            ∨ (classify (NewQueryHook infoLogger []) (Since 5 5) infoLogger none).1
                = LevelError))
    ∧ (NewQueryHook mockLogger [WithLogger none]).enabled = true
    ∧ (∀ lg : Logger,
        (classify (NewQueryHook mockLogger [WithLogger none]) (Since 5 5) lg none).1
          = LevelDebug)
    ∧ emitted (AfterQuery (NewQueryHook mockLogger [WithLogger none]) 5 background
        (QueryEvent.mk 5 "SELECT 3" "SELECT" none)) = [] := by
  have hE : emitted (AfterQuery (NewQueryHook infoLogger []) 5 background
      (QueryEvent.mk 5 "SELECT 3" "SELECT" none)) = [] := by decide
  refine ⟨rfl, rfl, hE, ?_, rfl, fun _ => rfl, rfl⟩
  intro hIff
  exact hIff.mpr ⟨rfl, Or.inl rfl⟩ hE

/-- C17 amended: on a hook with a non-nil logger whose sink accepts the
selected level, `AfterQuery` emits a record if and only if the hook is enabled and the level
selected is one of `slog.LevelDebug` (-4), `slog.LevelInfo` (0),
`slog.LevelWarn` (4), `slog.LevelError` (8); when it emits, it emits exactly
one record, at the selected level; for every other selected level an enabled
hook emits nothing. -/
theorem C17_emits_iff_named_level (h : QueryHook) (now : Time) (ctx : Context)
    (event : QueryEvent) (base : Logger) (level : Level)
    (hLg : h.logger = some base)
    (hSel : (classify h (Since now event.StartTime) base event.Err).1 = level)
    (hAcc : base.accepts ctx level = true) :
    (emitted (AfterQuery h now ctx event) ≠ [] ↔
        h.enabled = true ∧ (level = LevelDebug ∨ level = LevelInfo ∨ level = LevelWarn
          ∨ level = LevelError))
    ∧ (∀ r ∈ emitted (AfterQuery h now ctx event),
        emitted (AfterQuery h now ctx event) = [r] ∧ r.Level = level)
    ∧ (h.enabled = true → level ≠ LevelDebug → level ≠ LevelInfo → level ≠ LevelWarn →
        level ≠ LevelError → emitted (AfterQuery h now ctx event) = [])
    ∧ (LevelDebug = -4 ∧ LevelInfo = 0 ∧ LevelWarn = 4 ∧ LevelError = 8) := by
  have hOff : h.enabled = false → emitted (AfterQuery h now ctx event) = [] := by
    intro hOn
    rw [AfterQuery_disabled h now ctx event hOn]
    rfl
  have hRun : h.enabled = true → emitted (AfterQuery h now ctx event)
      = if level = LevelError then [Record.mk level event.Query base.attrs]
        else if level = LevelDebug ∨ level = LevelInfo ∨ level = LevelWarn
          then [Record.mk level event.Query
            (classify h (Since now event.StartTime)
              (Logger.mk base.accepts (base.attrs ++ callAttrs now event)) event.Err).2.1.attrs]
        else [] := by
    intro hOn
    rw [emitted_AfterQuery h now ctx event base hOn hLg,
      classify_level_indep h _ _ base, hSel]
    apply records_dispatch_named _ _ _ _ _ hAcc
    rw [classify_accepts]
    exact hAcc
  refine ⟨?_, ?_, ?_, ⟨rfl, rfl, rfl, rfl⟩⟩
  · cases hOn : h.enabled with
    | false => simp [hOff hOn]
    | true =>
      rw [hRun hOn]
      by_cases hE : level = LevelError
      · simp [hE]
      · by_cases hN : level = LevelDebug ∨ level = LevelInfo ∨ level = LevelWarn
        · rw [if_neg hE, if_pos hN]
          simp only [ne_eq, List.cons_ne_nil, not_false_eq_true, true_and, true_iff]
          rcases hN with hN | hN | hN
          · exact Or.inl hN
          · exact Or.inr (Or.inl hN)
          · exact Or.inr (Or.inr (Or.inl hN))
        · rw [if_neg hE, if_neg hN]
          simp only [ne_eq, not_true_eq_false, true_and, false_iff]
          intro hc
          rcases hc with hc | hc | hc | hc
          · exact hN (Or.inl hc)
          · exact hN (Or.inr (Or.inl hc))
          · exact hN (Or.inr (Or.inr hc))
          · exact hE hc
  · intro r hr
    cases hOn : h.enabled with
    | false => rw [hOff hOn] at hr; simp at hr
    | true =>
      rw [hRun hOn] at hr ⊢
      split at hr
      · next hE =>
        simp only [List.mem_singleton] at hr
        subst hr
        rw [if_pos hE]
        exact ⟨rfl, rfl⟩
      · next hE =>
        split at hr
        · next hN =>
          simp only [List.mem_singleton] at hr
          subst hr
          rw [if_neg hE, if_pos hN]
          exact ⟨rfl, rfl⟩
        · simp at hr
  · intro hOn hD hI hW hE
    rw [hRun hOn, if_neg hE, if_neg (by simp [hD, hI, hW])]

/-- Witness of C17: the level `slog.Level(12)`, `LevelError + 4`, selected
for a failing query emits nothing on the recording sink. -/
theorem C17_emits_iff_named_level_witness :
    emitted (AfterQuery
        (NewQueryHook mockLogger [WithLogger (some mockLogger), WithErrorLevel (LevelError + 4)])
        5 background (QueryEvent.mk 5 "SELECT 1" "SELECT" (some (GoError.errorString "fail"))))
      = [] :=
  (C17_emits_iff_named_level
    (NewQueryHook mockLogger [WithLogger (some mockLogger), WithErrorLevel (LevelError + 4)])
    5 background (QueryEvent.mk 5 "SELECT 1" "SELECT" (some (GoError.errorString "fail")))
    mockLogger 12 rfl (by decide) rfl).2.2.1 rfl (by decide) (by decide) (by decide)
    (by decide)

/-- C18: which per-call attributes a record carries follows from its level.
A record at `slog.LevelError` went through the hook's own logger and carries
none of `operation`, `operation_duration_ms`, `error`, whatever the outcome;
a record at another level (Debug, Info or Warn) carries `operation` and
`operation_duration_ms`, and carries `error` exactly when the event's `Err`
is non-nil and not `sql.ErrNoRows`. -/
theorem C18_attributes_follow_level (h : QueryHook) (now : Time) (ctx : Context)
    (event : QueryEvent) (base : Logger) (hLg : h.logger = some base) :
    ∀ r ∈ emitted (AfterQuery h now ctx event),
      (r.Level = LevelError →
        r.Attrs = base.attrs
          ∧ hasKey "operation" (perCallAttrs base r) = false
          ∧ hasKey "operation_duration_ms" (perCallAttrs base r) = false
          ∧ hasKey "error" (perCallAttrs base r) = false)
      ∧ (r.Level ≠ LevelError →
        (r.Level = LevelDebug ∨ r.Level = LevelInfo ∨ r.Level = LevelWarn)
          ∧ hasKey "operation" (perCallAttrs base r) = true
          ∧ hasKey "operation_duration_ms" (perCallAttrs base r) = true
          ∧ (hasKey "error" (perCallAttrs base r) = true
              ↔ ∃ e, event.Err = some e ∧ e ≠ GoError.ErrNoRows)) := by
  intro r hr
  cases hOn : h.enabled with
  | false => simp [AfterQuery_disabled _ now ctx _ hOn, emitted, records] at hr
  | true =>
    rw [emitted_AfterQuery _ now ctx _ base hOn hLg] at hr
    have hLevel := (dispatch_records _ _ _ _ _ r hr).1
    have hAttrs := dispatch_attrs _ _ _ _ _ r hr
    have hNamed := dispatch_records_named _ _ _ _ _ r hr
    rw [← hLevel] at hAttrs hNamed
    constructor
    · intro hE
      have hBase := hAttrs.1 hE
      refine ⟨hBase, ?_, ?_, ?_⟩ <;> rw [perCallAttrs_base base r hBase] <;> rfl
    · intro hE
      have hLoc := hAttrs.2 hE
      have hThree : r.Level = LevelDebug ∨ r.Level = LevelInfo ∨ r.Level = LevelWarn := by
        rcases hNamed with hn | hn | hn | hn
        · exact Or.inl hn
        · exact Or.inr (Or.inl hn)
        · exact Or.inr (Or.inr hn)
        · exact absurd hn hE
      refine ⟨hThree, ?_⟩
      by_cases hFail : ∃ e, event.Err = some e ∧ e ≠ GoError.ErrNoRows
      · obtain ⟨e, he, hne⟩ := hFail
        rw [he, classify_failure h _ _ e hne] at hLoc
        have hP : perCallAttrs base r
            = callAttrs now event ++ [Attr.mk "error" (AttrValue.any e)] :=
          perCallAttrs_append base r _ (by rw [hLoc]; simp)
        rw [hP]
        refine ⟨by simp [hasKey, callAttrs], by simp [hasKey, callAttrs], ?_⟩
        constructor
        · intro _; exact ⟨e, he, hne⟩
        · intro _; simp [hasKey, callAttrs]
      · have hOk : event.Err = none ∨ event.Err = some GoError.ErrNoRows := by
          cases hErr : event.Err with
          | none => exact Or.inl rfl
          | some e =>
            by_cases he : e = GoError.ErrNoRows
            · subst he; exact Or.inr rfl
            · exact absurd ⟨e, hErr, he⟩ hFail
        rw [classify_success h _ _ _ hOk] at hLoc
        have hP : perCallAttrs base r = callAttrs now event :=
          perCallAttrs_append base r _ hLoc
        rw [hP]
        refine ⟨by simp [hasKey, callAttrs], by simp [hasKey, callAttrs], ?_⟩
        constructor
        · intro hc; simp [hasKey, callAttrs] at hc
        · intro hc; exact absurd hc hFail

/-- Witness of C18: a failure logged with `errorLevel = slog.LevelWarn`
carries the `error` attribute. -/
theorem C18_attributes_follow_level_witness :
    emitted (AfterQuery
        (NewQueryHook mockLogger [WithLogger (some mockLogger), WithErrorLevel LevelWarn])
        5 background (QueryEvent.mk 5 "SELECT 1" "SELECT" (some (GoError.errorString "fail"))))
      = [Record.mk LevelWarn "SELECT 1"
          [Attr.mk "operation" (AttrValue.str "SELECT"),
           Attr.mk "operation_duration_ms" (AttrValue.int64 0),
           Attr.mk "error" (AttrValue.any (GoError.errorString "fail"))]]
    ∧ hasKey "error" (perCallAttrs mockLogger (Record.mk LevelWarn "SELECT 1"
          [Attr.mk "operation" (AttrValue.str "SELECT"),
           Attr.mk "operation_duration_ms" (AttrValue.int64 0),
           Attr.mk "error" (AttrValue.any (GoError.errorString "fail"))])) = true :=
  ⟨rfl, (((C18_attributes_follow_level
      (NewQueryHook mockLogger [WithLogger (some mockLogger), WithErrorLevel LevelWarn])
      5 background (QueryEvent.mk 5 "SELECT 1" "SELECT" (some (GoError.errorString "fail")))
      mockLogger rfl
      (Record.mk LevelWarn "SELECT 1"
        [Attr.mk "operation" (AttrValue.str "SELECT"),
         Attr.mk "operation_duration_ms" (AttrValue.int64 0),
         Attr.mk "error" (AttrValue.any (GoError.errorString "fail"))])
      (by decide)).2 (by decide)).2.2.2).mpr
      ⟨GoError.errorString "fail", rfl, by decide⟩⟩

/-- C19: the exemption is by identity with `sql.ErrNoRows`.  The first
`switch` takes its success branch exactly for a nil `Err` and for the
sentinel itself; every other error value, an error wrapping the sentinel
included (`fmt.Errorf("lookup: %w", sql.ErrNoRows)`), as well as a fresh
error with the sentinel's text, takes the failure branch: the level selected
is `errorLevel`, the `error` attribute is bound, and every record emitted has
level `errorLevel`. -/
theorem C19_noRows_exemption_by_identity (h : QueryHook) (now : Time) (ctx : Context)
    (event : QueryEvent) :
    (∀ (d : Duration) (lg : Logger) (err : Option GoError),
        (classify h d lg err).2.2 = [] ↔ (err = none ∨ err = some GoError.ErrNoRows))
    ∧ (∀ (d : Duration) (lg : Logger) (e : GoError), e ≠ GoError.ErrNoRows →
        (classify h d lg (some e)).1 = h.errorLevel
          ∧ (classify h d lg (some e)).2.2 = [Call.WithAttrs [Attr.mk "error" (AttrValue.any e)]])
    ∧ (∀ (d : Duration) (lg : Logger) (msg : String) (inner : GoError),
        (classify h d lg (some (GoError.wrapError msg inner))).1 = h.errorLevel)
    ∧ (∀ (d : Duration) (lg : Logger),
        (classify h d lg (some (GoError.wrapError "lookup: sql: no rows in result set"
          GoError.ErrNoRows))).1 = h.errorLevel)
    ∧ (∀ (d : Duration) (lg : Logger),
        (classify h d lg (some (GoError.errorString "sql: no rows in result set"))).1
          = h.errorLevel)
    ∧ (∀ e : GoError, event.Err = some e → e ≠ GoError.ErrNoRows →
        ∀ r ∈ emitted (AfterQuery h now ctx event), r.Level = h.errorLevel) := by
  have hFail : ∀ (d : Duration) (lg : Logger) (e : GoError), e ≠ GoError.ErrNoRows →
      (classify h d lg (some e)).1 = h.errorLevel
        ∧ (classify h d lg (some e)).2.2
            = [Call.WithAttrs [Attr.mk "error" (AttrValue.any e)]] := by
    intro d lg e hne
    rw [classify_failure h d lg e hne]
    exact ⟨rfl, rfl⟩
  refine ⟨?_, hFail, ?_, ?_, ?_, ?_⟩
  · intro d lg err
    constructor
    · intro hNil
      cases err with
      | none => exact Or.inl rfl
      | some e =>
        by_cases he : e = GoError.ErrNoRows
        · subst he; exact Or.inr rfl
        · rw [(hFail d lg e he).2] at hNil
          simp at hNil
    · intro hOk
      rw [classify_success h d lg err hOk]
  · intro d lg msg inner
    exact (hFail d lg _ (by simp)).1
  · intro d lg
    exact (hFail d lg _ (by simp)).1
  · intro d lg
    exact (hFail d lg _ (by simp)).1
  · intro e hErr hne r hr
    rw [(emitted_level_message h now ctx event mockLogger r hr).1, hErr]
    exact (hFail _ _ e hne).1

/-- Witness of C19: the default hook logs an error wrapping `sql.ErrNoRows`
at `slog.LevelError`, not at `slog.LevelDebug`. -/
theorem C19_noRows_exemption_by_identity_witness :
    emitted (AfterQuery (NewQueryHook mockLogger []) 5 background
        (QueryEvent.mk 5 "SELECT 1" "SELECT"
          (some (GoError.wrapError "lookup: sql: no rows in result set" GoError.ErrNoRows))))
      = [Record.mk LevelError "SELECT 1" []]
    ∧ ∀ r ∈ emitted (AfterQuery (NewQueryHook mockLogger []) 5 background
        (QueryEvent.mk 5 "SELECT 1" "SELECT"
          (some (GoError.wrapError "lookup: sql: no rows in result set" GoError.ErrNoRows)))),
        r.Level = LevelError :=
  ⟨rfl, (C19_noRows_exemption_by_identity (NewQueryHook mockLogger []) 5 background
    (QueryEvent.mk 5 "SELECT 1" "SELECT"
      (some (GoError.wrapError "lookup: sql: no rows in result set" GoError.ErrNoRows)))).2.2.2.2.2
    _ rfl (by decide)⟩

end bunslog
